import Mathlib

/-!
Shallow embedding of the `log_mining` subsystem of the repository:
`firewall_log_generator.py` (the Generator) and `log_summarizer.py`
(the Summarizer).

Randomness model.  `random.seed(seed)` fixes the stream of raw outputs of
the seeded Mersenne-Twister; we model that seeded stream as a tape
`ℕ → ℕ` consumed left to right, and each `random.*` primitive as a
deterministic interpretation of the next raw value into its range
(`random.random()` yields `k / 2^53` for a 53-bit draw `k`, which is
exactly the set of values CPython's `random()` can return;
`random.randint(a, b)` yields a value in `[a, b]`;
`random.choice(l)` yields an index below `l.length`).
`uuid.uuid4()` does not read the seeded `random` stream: it reads the OS
entropy source (`os.urandom`), which we model as a second, independent
tape whose raw value is the 128-bit integer of the generated UUID.
Python floats are idealised as exact rationals; the one float operation
that has no exact rational counterpart, `math.log` inside
`random.expovariate`, is treated separately (see `expovariateR` below).
-/

namespace LogMining

/-- A stream of raw pseudo-random values (one source of randomness). -/
abbrev Tape := ℕ → ℕ

/-! ### Decimal / hexadecimal rendering of numbers

Python renders integers in f-strings as plain decimal digit runs; this is
the embedding of that rendering. -/

/-- The character for a decimal digit value. -/
def digitChar (d : ℕ) : Char := Char.ofNat (48 + d)

/-- Digits of `n`, most significant first; the first argument is fuel
(`n` itself is always enough fuel since `n / 10 < n` for `n > 0`). -/
def natCharsAux : ℕ → ℕ → List Char
  | 0, _ => []
  | _ + 1, 0 => []
  | fuel + 1, n + 1 => natCharsAux fuel ((n + 1) / 10) ++ [digitChar ((n + 1) % 10)]

/-- Decimal rendering of a natural number, as Python's `str`/f-string does. -/
def natChars (n : ℕ) : List Char := if n = 0 then ['0'] else natCharsAux n n

/-- Decimal rendering of a natural number, as a string. -/
def natStr (n : ℕ) : String := String.mk (natChars n)

/-- The character for a hexadecimal digit value (lowercase, as `uuid.hex`). -/
def hexChar (d : ℕ) : Char :=
  if d < 10 then Char.ofNat (48 + d) else Char.ofNat (87 + d)

/-- Hexadecimal digits of `n`, most significant first (fueled as above). -/
def hexCharsAux : ℕ → ℕ → List Char
  | 0, _ => []
  | _ + 1, 0 => []
  | fuel + 1, n + 1 => hexCharsAux fuel ((n + 1) / 16) ++ [hexChar ((n + 1) % 16)]

/-- `uuid.uuid4().hex`: the 32 lowercase hex digits (zero padded) of the
128-bit UUID value `n`.  We model the UUID value as the raw OS-entropy
draw; the RFC 4122 version/variant bit forcing only touches hex positions
12 and 16, which the claims never constrain, so it is not replayed here. -/
def uuidHexChars (n : ℕ) : List Char :=
  let ds := if n % 2 ^ 128 = 0 then ['0'] else hexCharsAux 32 (n % 2 ^ 128)
  List.replicate (32 - ds.length) '0' ++ ds

/-- `uuid.uuid4().hex[:8]` — the 8-character correlation id
(line 101 of `firewall_log_generator.py`). -/
def uuidUid (n : ℕ) : List Char := (uuidHexChars n).take 8

/-! ### Character classes used by the two scripts -/

/-- The control characters stripped by the generator's sanitisation step
(`"\r\n\t\x0b\x0c"`, line 117 of `firewall_log_generator.py`). -/
def isCtrl (c : Char) : Bool :=
  c == '\r' || c == '\n' || c == '\t' || c == '\x0b' || c == '\x0c'

/-- ASCII whitespace as recognised by Python's `str.strip` / `str.split`. -/
def isPySpace (c : Char) : Bool :=
  c == ' ' || c == '\t' || c == '\n' || c == '\r' || c == '\x0b' || c == '\x0c'

/-- A word character in the sense of the regex `\b` boundary (`[A-Za-z0-9_]`;
the inputs at play are ASCII). -/
def isWordChar (c : Char) : Bool := c.isAlphanum || c == '_'

/-! ### Interpreted `random.*` primitives over a tape -/

/-- `random.random()`: a uniform draw in `[0, 1)`; CPython returns
`k / 2^53` for a 53-bit `k`. -/
def floatFrac (n : ℕ) : ℚ := ((n % 2 ^ 53 : ℕ) : ℚ) / (2 ^ 53 : ℚ)

/-- `random.random()` consuming one tape cell. -/
def pyRandom (t : Tape) (p : ℕ) : ℚ × ℕ := (floatFrac (t p), p + 1)

/-- `random.randint(lo, hi)` consuming one tape cell: a value in `[lo, hi]`. -/
def pyRandint (lo hi : ℕ) (t : Tape) (p : ℕ) : ℕ × ℕ :=
  (lo + t p % (hi + 1 - lo), p + 1)

/-- `random.choice(l)` consuming one tape cell: a uniformly drawn element
(`d` is a default only reachable on an empty list, where Python raises). -/
def pyChoice {α : Type} (l : List α) (d : α) (t : Tape) (p : ℕ) : α × ℕ :=
  (l.getD (t p % l.length) d, p + 1)

/-! ### `weighted_choice` (lines 54–61 of `firewall_log_generator.py`) -/

/-- The accumulation loop of `weighted_choice`: walk the pairs keeping the
running mass `upto`; return the first label with `upto + w >= r`. -/
def wcGo (r : ℚ) : ℚ → List (String × ℚ) → Option String
  | _, [] => none
  | upto, (k, w) :: rest => if r ≤ upto + w then some k else wcGo r (upto + w) rest

/-- `weighted_choice(choices)` applied to the drawn `r = random.random()`:
the loop's answer, falling back to `choices[-1][0]` when the loop finishes.
`none` corresponds to the `IndexError` Python would raise on an empty table. -/
def weightedChoice (choices : List (String × ℚ)) (r : ℚ) : Option String :=
  match wcGo r 0 choices with
  | some k => some k
  | none => choices.getLast?.map Prod.fst

/-- Cumulative mass of the first `k` entries of a choice table. -/
def cumW (choices : List (String × ℚ)) (k : ℕ) : ℚ :=
  ((choices.take k).map Prod.snd).sum

/-! ### `random.choices(population, weights)[0]`
(line 97 of `firewall_log_generator.py`)

CPython computes the inclusive cumulative weights, draws one
`random()` value `u`, and indexes the population with
`bisect.bisect_right(cum_weights, u * total, 0, len(population) - 1)`.
On a sorted list, `bisect_right` over the first `n - 1` cumulative
weights is the number of them that are `≤ x`. -/

/-- Inclusive cumulative sums (`itertools.accumulate`). -/
def cumAux (acc : ℚ) : List ℚ → List ℚ
  | [] => []
  | w :: rest => (acc + w) :: cumAux (acc + w) rest

/-- `random.choices(population, weights=ws)[0]` at the drawn uniform `u`. -/
def pyChoices1 (population : List String) (ws : List ℚ) (u : ℚ) : String :=
  let cw := cumAux 0 ws
  let total := cw.getLastD 0
  let x := u * total
  let idx := (cw.take (population.length - 1)).countP (fun c => decide (c ≤ x))
  population.getD idx ""

/-! ### The generator's constant tables (lines 28–51) -/

def SEVERITY : List (String × ℚ) :=
  [("INFO", 70/100), ("NOTICE", 10/100), ("WARNING", 12/100),
   ("ERROR", 6/100), ("CRITICAL", 2/100)]

def ACTIONS : List String := ["ACCEPT", "DROP", "REJECT"]

/-- The weights `[0.6, 0.3, 0.1]` passed to `random.choices` on line 97. -/
def ACTION_WEIGHTS : List ℚ := [6/10, 3/10, 1/10]

/-- The action table of the spec's sentence "This same primitive is reused
for action selection (ACCEPT 0.6 / DROP 0.3 / REJECT 0.1)": the pairing of
`ACTIONS` with `ACTION_WEIGHTS` in `weighted_choice`'s input shape. -/
def actionTable : List (String × ℚ) :=
  [("ACCEPT", 6/10), ("DROP", 3/10), ("REJECT", 1/10)]

def PROTOCOLS : List String := ["TCP", "UDP", "ICMP", "GRE", "ESP"]

def INTERFACES : List String := ["eth0", "eth1", "wan0", "lan0", "dmz0"]

def REASONS_INFO : List String :=
  ["Connection established", "Connection closed", "NAT translation success",
   "Policy matched", "Session aged out", "Health check passed"]

def REASONS_WARN : List String :=
  ["Suspicious connection rate", "Unexpected packet", "Possible policy mismatch",
   "Malformed packet", "IP spoofing suspected"]

def REASONS_ERROR : List String :=
  ["Policy violation", "Intrusion detected", "Configuration error", "Resource exhausted",
   "Authentication failure", "Firewall rule conflict"]

/-- The destination-port pool of line 93. -/
def PORTS : List ℕ := [22, 80, 443, 53, 8080, 3389, 5000, 514, 3306, 1433]

/-! ### `random_ipv4` (lines 64–79) -/

/-- The three reserved blocks in the order of the `nets` list
`["10.0.0.0/8", "192.168.0.0/16", "172.16.0.0/12"]`, each as
(integer network address, number of addresses). -/
def NETS : List (ℕ × ℕ) :=
  [(10 * 2 ^ 24, 2 ^ 24), (192 * 2 ^ 24 + 168 * 2 ^ 16, 2 ^ 16),
   (172 * 2 ^ 24 + 16 * 2 ^ 16, 2 ^ 20)]

/-- `str(ipaddress.IPv4Address(n))`: dotted-quad rendering of the 32-bit
integer address. -/
def ipChars (n : ℕ) : List Char :=
  natChars (n / 2 ^ 24 % 256) ++ '.' :: natChars (n / 2 ^ 16 % 256) ++
    '.' :: natChars (n / 2 ^ 8 % 256) ++ '.' :: natChars (n % 256)

/-- `f"{a}.{b}.{c}.{d}"` of the rejection loop's four octet draws. -/
def quadChars (a b c d : ℕ) : List Char :=
  natChars a ++ '.' :: natChars b ++ '.' :: natChars c ++ '.' :: natChars d

/-- The reserved-block test of line 78:
`a == 10 or (a == 192 and b == 168) or (a == 172 and 16 <= b <= 31)`. -/
def reservedQuad (a b : ℕ) : Bool :=
  a == 10 || (a == 192 && b == 168) || (a == 172 && (16 ≤ b && b ≤ 31))

/-- The `while True` rejection loop of lines 73–79, fueled: draw
`a ∈ [1,254]`, `b, c ∈ [0,254]`, `d ∈ [1,254]`, retry while the quad is
inside a reserved block.  `none` means the fuel ran out. -/
def publicQuadLoop (t : Tape) : ℕ → ℕ → Option ((ℕ × ℕ × ℕ × ℕ) × ℕ)
  | 0, _ => none
  | fuel + 1, p =>
    let sa := pyRandint 1 254 t p
    let sb := pyRandint 0 254 t sa.2
    let sc := pyRandint 0 254 t sb.2
    let sd := pyRandint 1 254 t sc.2
    if reservedQuad sa.1 sb.1 then publicQuadLoop t fuel sd.2
    else some ((sa.1, sb.1, sc.1, sd.1), sd.2)

/-- `random_ipv4(private_bias)` (lines 64–79): with `random() < bias` pick a
reserved block uniformly and a host offset `randint(1, num_addresses - 2)`;
otherwise run the public rejection loop. -/
def randomIPv4 (bias : ℚ) (fuel : ℕ) (t : Tape) (p : ℕ) : Option (String × ℕ) :=
  let s0 := pyRandom t p
  if s0.1 < bias then
    let s1 := pyChoice NETS (0, 1) t s0.2
    let s2 := pyRandint 1 (s1.1.2 - 2) t s1.2
    some (String.mk (ipChars (s1.1.1 + s2.1)), s2.2)
  else
    match publicQuadLoop t fuel s0.2 with
    | none => none
    | some (q, p') => some (String.mk (quadChars q.1 q.2.1 q.2.2.1 q.2.2.2), p')

/-! ### Timestamps and `format_syslog_ts` (lines 82–83) -/

/-- A `datetime.datetime` value (second granularity; the scripts never
read sub-second fields). -/
structure PyDateTime where
  year : ℕ
  month : ℕ
  day : ℕ
  hour : ℕ
  minute : ℕ
  second : ℕ
  deriving DecidableEq, Repr

def MONTHS : List String :=
  ["Jan", "Feb", "Mar", "Apr", "May", "Jun",
   "Jul", "Aug", "Sep", "Oct", "Nov", "Dec"]

/-- Two-digit zero-padded decimal rendering (`%d`, `%H`, `%M`, `%S`). -/
def pad2Chars (n : ℕ) : List Char :=
  if n < 10 then '0' :: natChars n else natChars n

/-- `ts.strftime("%b %d %H:%M:%S")` (line 83). -/
def syslogTsChars (ts : PyDateTime) : List Char :=
  (MONTHS.getD (ts.month - 1) "Jan").data ++ ' ' :: pad2Chars ts.day ++
    ' ' :: pad2Chars ts.hour ++ ':' :: pad2Chars ts.minute ++
    ':' :: pad2Chars ts.second

def formatSyslogTs (ts : PyDateTime) : String := String.mk (syslogTsChars ts)

/-! ### `make_log_line` (lines 86–118) -/

/-- The values drawn for one record, in the order the source draws them. -/
structure LineDraws where
  sev : String
  proto : String
  sIp : String
  dIp : String
  sPt : ℕ
  dPt : ℕ
  inIf : String
  outIf : String
  action : String
  bytesCnt : ℕ
  pkts : ℕ
  rule : ℕ
  uid : List Char
  reason : String

/-- The f-string `message` of lines 110–114. -/
def msgChars (d : LineDraws) : List Char :=
  "%FW-".data ++ d.sev.data ++ "-*.".data ++ natChars d.rule ++ ": ".data ++
    d.reason.data ++ "; src=".data ++ d.sIp.data ++ " dst=".data ++ d.dIp.data ++
    " proto=".data ++ d.proto.data ++ " spt=".data ++ natChars d.sPt ++
    " dpt=".data ++ natChars d.dPt ++ " action=".data ++ d.action.data ++
    " bytes=".data ++ natChars d.bytesCnt ++ " pkts=".data ++ natChars d.pkts ++
    " rule=".data ++ natChars d.rule ++ " in=".data ++ d.inIf.data ++
    " out=".data ++ d.outIf.data ++ " uid=".data ++ d.uid

/-- Line 117: `"".join(ch for ch in message if ch not in "\r\n\t\x0b\x0c")`. -/
def sanitizeMsg (l : List Char) : List Char := l.filter (fun c => !(isCtrl c))

/-- Line 118: `f"{format_syslog_ts(ts)} {host} firewall[{pid}]: {safe_message}"`. -/
def lineChars (ts : PyDateTime) (host : String) (pid : ℕ) (d : LineDraws) : List Char :=
  syslogTsChars ts ++ ' ' :: host.data ++ " firewall[".data ++ natChars pid ++
    "]: ".data ++ sanitizeMsg (msgChars d)

/-- `make_log_line(ts, host, pid)` (lines 86–118), over the seeded tape `t`
(position `p`) and the OS-entropy tape `e` (position `q`, consumed by the
`uuid.uuid4()` call on line 101).  Draw order follows the source exactly;
branches that skip a `random.*` call consume no tape cell. -/
def makeLogLine (ts : PyDateTime) (host : String) (pid : ℕ) (fuel : ℕ)
    (t e : Tape) (p q : ℕ) : Option (String × ℕ × ℕ) :=
  let s0 := pyRandom t p
  let sev := (weightedChoice SEVERITY s0.1).getD ""
  let s1 := pyChoice PROTOCOLS "" t s0.2
  let proto := s1.1
  match randomIPv4 (6/10) fuel t s1.2 with
  | none => none
  | some (sIp, p2) =>
    match randomIPv4 (3/10) fuel t p2 with
    | none => none
    | some (dIp, p3) =>
      let s4 := if proto = "TCP" ∨ proto = "UDP" then pyRandint 1 65535 t p3 else (0, p3)
      let s5 := if proto = "TCP" ∨ proto = "UDP" then pyChoice PORTS 0 t s4.2 else (0, s4.2)
      let s6 := pyChoice INTERFACES "" t s5.2
      let s7 := pyChoice INTERFACES "" t s6.2
      let s8 := pyRandom t s7.2
      let action := pyChoices1 ACTIONS ACTION_WEIGHTS s8.1
      let s9 := pyRandint 0 15000 t s8.2
      let bytesCnt := s9.1
      let s10 := if 0 < bytesCnt then
          let sdv := pyRandint 60 120 t s9.2
          (max 1 (bytesCnt / sdv.1), sdv.2)
        else pyRandint 0 4 t s9.2
      let s11 := pyRandint 100 3999 t s10.2
      let uid := uuidUid (e q)
      let s12 := if sev = "INFO" ∨ sev = "NOTICE" then pyChoice REASONS_INFO "" t s11.2
        else if sev = "WARNING" then pyChoice REASONS_WARN "" t s11.2
        else pyChoice REASONS_ERROR "" t s11.2
      let d : LineDraws :=
        ⟨sev, proto, sIp, dIp, s4.1, s5.1, s6.1, s7.1, action, bytesCnt,
         s10.1, s11.1, uid, s12.1⟩
      some (String.mk (lineChars ts host pid d), s12.2, q + 1)

/-! ### `generate_logs` (lines 121–134) -/

/-- Python `str.rstrip()` (line 131). -/
def pyRstrip (l : List Char) : List Char :=
  (l.reverse.dropWhile isPySpace).reverse

def HOST : String := "fw01.corp.example.com"

/-- The write loop of lines 127–131.  `advance` stands for the timestamp
update `ts += timedelta(seconds=random.expovariate(1 / 1.2))` of line 129
as a function of the current timestamp and the `random()` value the
`expovariate` call consumes: that update composes the transcendental
`-log(1-u)/lambd` with `timedelta`'s rounding to whole microseconds, and
so has no exact rational embedding — its real-valued model is
`expovariateR`/`timedeltaMicros`/`tsSeqMicros` below.  Each written chunk
is `line.rstrip() + "\n"`. -/
def genLoop (host : String) (pid : ℕ) (advance : PyDateTime → ℚ → PyDateTime)
    (fuel : ℕ) (t e : Tape) :
    ℕ → PyDateTime → ℕ → ℕ → Option (List String × ℕ × ℕ)
  | 0, _, p, q => some ([], p, q)
  | n + 1, ts, p, q =>
    let s0 := pyRandom t p
    let ts1 := advance ts s0.1
    match makeLogLine ts1 host pid fuel t e s0.2 q with
    | none => none
    | some (line, p2, q2) =>
      match genLoop host pid advance fuel t e n ts1 p2 q2 with
      | none => none
      | some (rest, p3, q3) => some (String.mk (pyRstrip line.data ++ ['\n']) :: rest, p3, q3)

/-- `generate_logs(count, start_time, out_path, seed)` (lines 121–134):
`random.seed(seed)` fixes the tape `t`; `pid = random.randint(1000, 9999)`
is drawn once; then the loop writes `count` chunks.  The returned list is
the sequence of chunks written to the file, i.e. the file's content. -/
def generateLogs (count : ℕ) (startTime : PyDateTime)
    (advance : PyDateTime → ℚ → PyDateTime) (fuel : ℕ) (t e : Tape) :
    Option (List String × ℕ × ℕ) :=
  let s0 := pyRandint 1000 9999 t 0
  genLoop HOST s0.1 advance fuel t e count startTime s0.2 0

/-! ### The timing model of line 129, for the timestamp claims

`random.expovariate(lambd)` is `-log(1.0 - random()) / lambd` with
`lambd = 1 / 1.2 = 5/6`; over the reals this formula is exact.
`ts += timedelta(seconds=x)` does NOT add the real `x`: `timedelta`
stores whole microseconds, rounding `x * 10^6` to the nearest integer
with ties going to the even neighbour (CPython's round-half-even).  A
`datetime` therefore advances by `roundHalfEven (x * 10^6)` microseconds,
which is `0` whenever `x < 0.5e-6` — so even a nonzero expovariate draw
can leave the timestamp unchanged. -/

noncomputable def expovariateR (u : ℝ) : ℝ := -(Real.log (1 - u)) / (5 / 6)

/-- Round to the nearest integer, ties to the even neighbour (the rounding
CPython applies when normalising `timedelta` fields). -/
noncomputable def roundHalfEven (y : ℝ) : ℤ :=
  if Int.fract y = 1 / 2 then (if Even ⌊y⌋ then ⌊y⌋ else ⌊y⌋ + 1)
  else round y

/-- The whole-microsecond increment stored by
`timedelta(seconds=x)` (line 129). -/
noncomputable def timedeltaMicros (x : ℝ) : ℤ := roundHalfEven (x * 1000000)

/-- The sequence of record timestamps, in whole microseconds from the
start, produced by line 129: each record's timestamp adds
`timedelta(seconds=expovariate(1/1.2))` — the expovariate value rounded
to whole microseconds — driven by the uniform draw `u n`. -/
noncomputable def tsSeqMicros (t0 : ℤ) (u : ℕ → ℝ) : ℕ → ℤ
  | 0 => t0
  | n + 1 => tsSeqMicros t0 u n + timedeltaMicros (expovariateR (u n))

/-!
## The Summarizer: `log_summarizer.py`
-/

/-! ### Regex field extraction (lines 28–38)

`TIMESTAMP_PATTERN = \b(\d{4}-\d{2}-\d{2}[ T]\d{2}:\d{2}:\d{2})\b` and
`LEVEL_PATTERN = \b(INFO|WARN|WARNING|ERROR|DEBUG|CRITICAL)\b`, searched
with `re.search` (leftmost match).  `\b` holds at a position whose two
neighbours disagree on word-char-ness; since every pattern starts and ends
with a word character, `\b` amounts to "the adjacent outside character, if
any, is not a word character".  Out-of-range lookups use a space default,
which is a non-word, non-digit character, so they behave as "no char". -/

/-- Character at index `j`, with a non-word default beyond the ends. -/
def chAt (cs : List Char) (j : ℕ) : Char := cs.getD j ' '

/-- `\b` immediately before position `i`. -/
def boundaryBefore (cs : List Char) (i : ℕ) : Bool :=
  i == 0 || !(isWordChar (chAt cs (i - 1)))

/-- `\d` at index `j` (false beyond the ends). -/
def dAt (cs : List Char) (j : ℕ) : Bool := (chAt cs j).isDigit

/-- The fixed shape `\d{4}-\d{2}-\d{2}[ T]\d{2}:\d{2}:\d{2}` starting at `i`. -/
def tsShapeAt (cs : List Char) (i : ℕ) : Bool :=
  dAt cs i && dAt cs (i+1) && dAt cs (i+2) && dAt cs (i+3) &&
  chAt cs (i+4) == '-' && dAt cs (i+5) && dAt cs (i+6) &&
  chAt cs (i+7) == '-' && dAt cs (i+8) && dAt cs (i+9) &&
  (chAt cs (i+10) == ' ' || chAt cs (i+10) == 'T') &&
  dAt cs (i+11) && dAt cs (i+12) && chAt cs (i+13) == ':' &&
  dAt cs (i+14) && dAt cs (i+15) && chAt cs (i+16) == ':' &&
  dAt cs (i+17) && dAt cs (i+18)

/-- `TIMESTAMP_PATTERN` matches (with both `\b`s) at position `i`. -/
def tsMatchAt (cs : List Char) (i : ℕ) : Bool :=
  boundaryBefore cs i && tsShapeAt cs i && !(isWordChar (chAt cs (i + 19)))

/-- `TIMESTAMP_PATTERN.search(line)`: the leftmost match's 19 characters. -/
def tsSearch (cs : List Char) : Option (List Char) :=
  ((List.range cs.length).find? (tsMatchAt cs)).map fun i => (cs.drop i).take 19

/-- The level alternation, in the regex's alternation order. -/
def LEVELS : List String := ["INFO", "WARN", "WARNING", "ERROR", "DEBUG", "CRITICAL"]

/-- The first alternative of `LEVEL_PATTERN` matching at position `i`
(the regex engine tries the alternatives left to right and backtracks on a
failed trailing `\b`, so e.g. `WARNING` is found even though `WARN` is
tried first). -/
def levelAt (cs : List Char) (i : ℕ) : Option String :=
  if boundaryBefore cs i then
    LEVELS.find? fun w =>
      w.data.isPrefixOf (cs.drop i) && !(isWordChar (chAt cs (i + w.data.length)))
  else none

/-- `LEVEL_PATTERN.search(line)`: the leftmost matching level token. -/
def levelSearch (cs : List Char) : Option String :=
  (List.range cs.length).findSome? (levelAt cs)

/-- Python `str.strip()` (line 37). -/
def pyStrip (l : List Char) : List Char :=
  ((l.dropWhile isPySpace).reverse.dropWhile isPySpace).reverse

/-- `parse_log_line(line)` (lines 31–38): the optional timestamp text, the
level (`"UNKNOWN"` when no token matches), and the stripped message. -/
def parseLogLine (line : String) : Option (List Char) × String × List Char :=
  (tsSearch line.data, (levelSearch line.data).getD "UNKNOWN", pyStrip line.data)

/-! ### `datetime.fromisoformat` (line 55) -/

def digitVal (c : Char) : ℕ := c.toNat - 48

def isLeap (y : ℕ) : Bool := y % 4 == 0 && (y % 100 != 0 || y % 400 == 0)

def daysInMonth (y m : ℕ) : ℕ :=
  if m = 2 then (if isLeap y then 29 else 28)
  else if m = 4 ∨ m = 6 ∨ m = 9 ∨ m = 11 then 30 else 31

/-- `ts.replace("T", " ")` (line 55). -/
def pyReplaceT (l : List Char) : List Char :=
  l.map fun c => if c == 'T' then ' ' else c

/-- `datetime.fromisoformat` on a `YYYY-MM-DD HH:MM:SS` string: parses the
six fields and raises `ValueError` (here `.error`) when they do not form a
valid calendar date-time (`MINYEAR = 1`; the day is checked against the
month length, leap years included). -/
def fromIsoFormat (l : List Char) : Except String PyDateTime :=
  match l with
  | [y1, y2, y3, y4, h1, m1, m2, h2, d1, d2, sp, hh1, hh2, c1, mi1, mi2, c2, ss1, ss2] =>
    if (y1.isDigit && y2.isDigit && y3.isDigit && y4.isDigit && h1 == '-' &&
        m1.isDigit && m2.isDigit && h2 == '-' && d1.isDigit && d2.isDigit &&
        sp == ' ' && hh1.isDigit && hh2.isDigit && c1 == ':' && mi1.isDigit &&
        mi2.isDigit && c2 == ':' && ss1.isDigit && ss2.isDigit) = true then
      let y := ((digitVal y1 * 10 + digitVal y2) * 10 + digitVal y3) * 10 + digitVal y4
      let mo := digitVal m1 * 10 + digitVal m2
      let dy := digitVal d1 * 10 + digitVal d2
      let hr := digitVal hh1 * 10 + digitVal hh2
      let mi := digitVal mi1 * 10 + digitVal mi2
      let sc := digitVal ss1 * 10 + digitVal ss2
      if 1 ≤ y ∧ 1 ≤ mo ∧ mo ≤ 12 ∧ 1 ≤ dy ∧ dy ≤ daysInMonth y mo ∧
          hr ≤ 23 ∧ mi ≤ 59 ∧ sc ≤ 59 then
        .ok ⟨y, mo, dy, hr, mi, sc⟩
      else .error "field out of range"
    else .error "invalid isoformat string"
  | _ => .error "invalid isoformat string"

/-- `datetime` comparison key: datetimes compare lexicographically by
(year, month, day, hour, minute, second). -/
def dtKey (d : PyDateTime) : ℕ :=
  ((((d.year * 13 + d.month) * 32 + d.day) * 24 + d.hour) * 60 + d.minute) * 60 + d.second

/-! ### Aggregation state and the per-line step (lines 40–70) -/

/-- The running aggregate of `summarize_log`: `level_counts` (a `Counter`,
i.e. an insertion-ordered count map), `error_messages` (a
`defaultdict(int)`, same shape), `total_lines`, `first_ts`, `last_ts`. -/
structure Agg where
  levels : List (String × ℕ)
  errors : List (String × ℕ)
  total : ℕ
  first : Option PyDateTime
  last : Option PyDateTime
  deriving DecidableEq, Repr

def emptyAgg : Agg := ⟨[], [], 0, none, none⟩

/-- `m[k] += 1` on an insertion-ordered count map (new keys at the end). -/
def bump : List (String × ℕ) → String → List (String × ℕ)
  | [], k => [(k, 1)]
  | (k', n) :: rest, k =>
    if k' = k then (k', n + 1) :: rest else (k', n) :: bump rest k

/-- Python `str.lower()` (ASCII model; the inputs at play are ASCII). -/
def lowerCh (c : Char) : Char :=
  if 'A' ≤ c ∧ c ≤ 'Z' then Char.ofNat (c.toNat + 32) else c

def lowerL (l : List Char) : List Char := l.map lowerCh

/-- Python `needle in hay` on strings: substring containment. -/
def containsSub (hay needle : List Char) : Bool :=
  (List.range (hay.length + 1)).any fun i => needle.isPrefixOf (hay.drop i)

/-- Python `str.split()` with no argument: split on whitespace runs,
dropping empty fields.  `cur` is the current field, reversed. -/
def pySplitGo (cur : List Char) : List Char → List (List Char)
  | [] => if cur = [] then [] else [cur.reverse]
  | c :: rest =>
    if isPySpace c then
      if cur = [] then pySplitGo [] rest else cur.reverse :: pySplitGo [] rest
    else pySplitGo (c :: cur) rest

def pySplit (l : List Char) : List (List Char) := pySplitGo [] l

/-- Line 69: `" ".join(msg.split()[1:8])` — drop the first token, take up
to the next 7, join with single spaces. -/
def errSig (msg : List Char) : List Char :=
  List.intercalate [' '] (((pySplit msg).drop 1).take 7)

/-- `keyword and keyword.lower() not in msg.lower()` (line 64). -/
def kwMiss (kw : Option (List Char)) (msg : List Char) : Bool :=
  match kw with
  | none => false
  | some k => !(containsSub (lowerL msg) (lowerL k))

/-- `start_date and ts_obj < start_date` (line 59). -/
def beforeStart (sd : Option PyDateTime) (t : PyDateTime) : Bool :=
  match sd with
  | none => false
  | some s => decide (dtKey t < dtKey s)

/-- `end_date and ts_obj > end_date` (line 61). -/
def afterEnd (ed : Option PyDateTime) (t : PyDateTime) : Bool :=
  match ed with
  | none => false
  | some e => decide (dtKey e < dtKey t)

/-- The filter-gated tail of the loop body (lines 64–70): the keyword test,
then the error-signature accumulation for ERROR/CRITICAL lines. -/
def sigStep (kw : Option (List Char)) (level : String) (msg : List Char)
    (st : Agg) : Agg :=
  if kwMiss kw msg then st
  else if level = "ERROR" ∨ level = "CRITICAL" then
    { st with errors := bump st.errors (String.mk (errSig msg)) }
  else st

/-- One iteration of the `for line in f` loop (lines 48–70).  Every line
bumps `total_lines` and its level's counter; a line with a matched
timestamp then parses it — `datetime.fromisoformat` may raise, which
aborts the whole pass (`.error`) — and unconditionally updates
`first_ts`/`last_ts` before the date-window tests `continue`; finally the
keyword test and the signature accumulation run. -/
def procLine (kw : Option (List Char)) (sd ed : Option PyDateTime)
    (st : Agg) (line : String) : Except String Agg :=
  let pr := parseLogLine line
  let base : Agg := { st with total := st.total + 1, levels := bump st.levels pr.2.1 }
  match pr.1 with
  | none => .ok (sigStep kw pr.2.1 pr.2.2 base)
  | some tstr =>
    match fromIsoFormat (pyReplaceT tstr) with
    | .error e => .error e
    | .ok tobj =>
      let base2 := { base with first := some (st.first.getD tobj), last := some tobj }
      if beforeStart sd tobj then .ok base2
      else if afterEnd ed tobj then .ok base2
      else .ok (sigStep kw pr.2.1 pr.2.2 base2)

/-- The whole pass of `summarize_log` over the file's lines. -/
def runAgg (kw : Option (List Char)) (sd ed : Option PyDateTime) :
    List String → Agg → Except String Agg
  | [], st => .ok st
  | l :: rest, st =>
    match procLine kw sd ed st l with
    | .error e => .error e
    | .ok st' => runAgg kw sd ed rest st'

/-- `summarize_log(file_path, keyword, start_date, end_date)`'s aggregation
(lines 40–70), on the file's lines. -/
def summarizeAgg (kw : Option (List Char)) (sd ed : Option PyDateTime)
    (lines : List String) : Except String Agg :=
  runAgg kw sd ed lines emptyAgg

/-! ### Report rendering (lines 72–88) -/

/-- Four-digit zero-padded decimal rendering. -/
def pad4Chars (n : ℕ) : List Char :=
  List.replicate (4 - (natChars n).length) '0' ++ natChars n

/-- `str(datetime)` for a whole-second datetime: `YYYY-MM-DD HH:MM:SS`. -/
def dtChars (d : PyDateTime) : List Char :=
  pad4Chars d.year ++ '-' :: pad2Chars d.month ++ '-' :: pad2Chars d.day ++
    ' ' :: pad2Chars d.hour ++ ':' :: pad2Chars d.minute ++ ':' :: pad2Chars d.second

def dtRender (o : Option PyDateTime) : String :=
  match o with
  | none => "None"
  | some d => String.mk (dtChars d)

/-- Stable-enough descending sort by count standing for
`Counter(error_messages).most_common(5)`'s ordering (sorted by descending
count); the claims checked here never constrain the tie order. -/
def insDesc (x : String × ℕ) : List (String × ℕ) → List (String × ℕ)
  | [] => [x]
  | y :: rest => if y.2 < x.2 then x :: y :: rest else y :: insDesc x rest

def sortDesc : List (String × ℕ) → List (String × ℕ)
  | [] => []
  | x :: rest => insDesc x (sortDesc rest)

/-- The `summary_lines` list of lines 73–86 (before the `"\n".join`). -/
def renderSummary (path : String) (st : Agg) : List String :=
  ["===== LOG SUMMARY =====",
   "File: " ++ path,
   (match st.first with
    | none => "Time span: N/A"
    | some f => "Time span: " ++ String.mk (dtChars f) ++ " → " ++ dtRender st.last),
   "Total lines processed: " ++ natStr st.total,
   "",
   "Log Level Counts:"]
  ++ st.levels.map (fun kv => "  " ++ kv.1 ++ ": " ++ natStr kv.2)
  ++ ["\nTop 5 Repeated Error Messages:"]
  ++ ((sortDesc st.errors).take 5).map (fun kv => "  (" ++ natStr kv.2 ++ "x) " ++ kv.1)

/-! ### Derived notions used by the claim statements -/

/-- The filter-independent projection of the aggregate: total line count,
level counts, first/last timestamp markers — everything except the
error-signature map. -/
def projA (st : Agg) : ℕ × List (String × ℕ) × Option PyDateTime × Option PyDateTime :=
  (st.total, st.levels, st.first, st.last)

/-- A 32-bit address (as an integer) lies in one of the three reserved
blocks 10/8, 172.16/12, 192.168/16. -/
def inReserved (n : ℕ) : Prop :=
  (10 * 2 ^ 24 ≤ n ∧ n < 11 * 2 ^ 24) ∨
  (172 * 2 ^ 24 + 16 * 2 ^ 16 ≤ n ∧ n < 172 * 2 ^ 24 + 32 * 2 ^ 16) ∨
  (192 * 2 ^ 24 + 168 * 2 ^ 16 ≤ n ∧ n < 192 * 2 ^ 24 + 169 * 2 ^ 16)

/-- The integer value of a dotted quad. -/
def quadNum (a b c d : ℕ) : ℕ := ((a * 256 + b) * 256 + c) * 256 + d

/-- A character is neither one of the stripped control characters nor a
hyphen (the two facts the line-shape proofs track). -/
abbrev SafeCh (c : Char) : Prop := isCtrl c = false ∧ c ≠ '-'

/-- No character of the list is a stripped control character. -/
abbrev CtrlFreeL (l : List Char) : Prop := ∀ c ∈ l, isCtrl c = false

/-- Adjacent-pair relation: never a decimal digit immediately followed by
a hyphen.  A string whose adjacent pairs all satisfy this cannot contain
a `\d{4}-\d{2}-\d{2}[ T]\d{2}:\d{2}:\d{2}` match. -/
abbrev noDHRel (c1 c2 : Char) : Prop := ¬(c1.isDigit = true ∧ c2 = '-')

/-- The only hyphen-bearing fragment of a generated line:
`"%FW-" + sev + "-*."` from the message f-string. -/
def fwFrag (sev : String) : List Char := "%FW-".data ++ sev.data ++ "-*.".data

/-- Bool checker for `noDHRel` along a list (used to decide concrete cases). -/
def noDHb : List Char → Bool
  | [] => true
  | [_] => true
  | c1 :: c2 :: rest => (!(c1.isDigit && c2 == '-')) && noDHb (c2 :: rest)

/-- The severity labels a generated line can carry (`""` is the formal
default of the total embedding of `weighted_choice`, unreachable on the
non-empty `SEVERITY` table but included so the lemmas stay total). -/
def sevLabels : List String := ["", "INFO", "NOTICE", "WARNING", "ERROR", "CRITICAL"]

/-!
## Theorems

Claim theorems are named `claim_Cn`, their witnesses `claim_Cn_witness`,
counterexamples `claim_Cn_counterexample`.
-/

lemma cumW_nil (k : ℕ) : cumW [] k = 0 := by
  simp [cumW]

lemma cumW_zero (cs : List (String × ℚ)) : cumW cs 0 = 0 := by
  simp [cumW]

lemma cumW_cons (x : String × ℚ) (l : List (String × ℚ)) (k : ℕ) :
    cumW (x :: l) (k + 1) = x.2 + cumW l k := by
  simp [cumW, List.take_succ_cons]

lemma wcGo_eq_some_of (r : ℚ) :
    ∀ (cs : List (String × ℚ)) (upto : ℚ) (i : ℕ) (hi : i < cs.length),
      (∀ j, j < i → upto + cumW cs (j + 1) < r) → r ≤ upto + cumW cs (i + 1) →
      wcGo r upto cs = some (cs.get ⟨i, hi⟩).1 := by
  intro cs
  induction cs with
  | nil => intro upto i hi _ _; simp at hi
  | cons x rest ih =>
    intro upto i hi hlt hge
    cases i with
    | zero =>
      have h1 : r ≤ upto + x.2 := by
        rw [cumW_cons, cumW_zero] at hge; linarith
      simp [wcGo, if_pos h1]
    | succ i' =>
      have h0 : upto + x.2 < r := by
        have h := hlt 0 (Nat.succ_pos _)
        rw [cumW_cons, cumW_zero] at h; linarith
      rw [wcGo, if_neg (by linarith)]
      have hlt' : ∀ j, j < i' → (upto + x.2) + cumW rest (j + 1) < r := by
        intro j hj
        have h := hlt (j + 1) (by omega)
        rw [cumW_cons] at h; linarith
      have hge' : r ≤ (upto + x.2) + cumW rest (i' + 1) := by
        rw [cumW_cons] at hge; linarith
      have := ih (upto + x.2) i' (by simpa using hi) hlt' hge'
      simpa using this

lemma wcGo_eq_none_of (r : ℚ) :
    ∀ (cs : List (String × ℚ)) (upto : ℚ),
      (∀ j, j < cs.length → upto + cumW cs (j + 1) < r) → wcGo r upto cs = none := by
  intro cs
  induction cs with
  | nil => intro upto _; simp [wcGo]
  | cons x rest ih =>
    intro upto hall
    have h0 : upto + x.2 < r := by
      have h := hall 0 (Nat.succ_pos _)
      rw [cumW_cons, cumW_zero] at h; linarith
    rw [wcGo, if_neg (by linarith)]
    apply ih
    intro j hj
    have h := hall (j + 1) (by simpa using hj)
    rw [cumW_cons] at h; linarith

/-- **C5**: on every non-empty choice table and every draw `r`,
`weighted_choice` returns the first label whose (inclusive) cumulative
mass is `≥ r`, and the table's last label when no cumulative prefix mass
reaches `r`.  (Stated for arbitrary tables and draws, hence in particular
for the claim's tables with non-negative weights summing to 1 and
`r ∈ [0,1)`.) -/
theorem claim_C5 (choices : List (String × ℚ)) (r : ℚ) (hne : choices ≠ []) :
    (∀ i, ∀ hi : i < choices.length,
        (∀ j, j < i → cumW choices (j + 1) < r) → r ≤ cumW choices (i + 1) →
        weightedChoice choices r = some (choices.get ⟨i, hi⟩).1) ∧
    ((∀ j, j < choices.length → cumW choices (j + 1) < r) →
        weightedChoice choices r = some (choices.getLast hne).1) := by
  constructor
  · intro i hi hlt hge
    have h := wcGo_eq_some_of r choices 0 i hi (by simpa using hlt) (by simpa using hge)
    simp [weightedChoice, h]
  · intro hall
    have h := wcGo_eq_none_of r choices 0 (by simpa using hall)
    simp [weightedChoice, h, List.getLast?_eq_getLast _ hne]

theorem claim_C5_witness : weightedChoice SEVERITY (1/2) = some "INFO" := by
  have h := (claim_C5 SEVERITY (1/2) (by decide)).1 0 (by decide)
    (fun j hj => absurd hj (Nat.not_lt_zero j))
    (by norm_num [cumW, SEVERITY])
  simpa [SEVERITY] using h

/-- **C8**: for every raw value of the seeded random stream, the action
picked on line 97 by `random.choices(ACTIONS, weights=[0.6, 0.3, 0.1])[0]`
equals the label `weighted_choice` would return on the action table from
that same stream state (both consume exactly one `random()` draw).  The
two would differ only at draws equal to a cumulative boundary `3/5` or
`9/10`, and no 53-bit draw `k / 2^53` hits those. -/
theorem claim_C8 (k : ℕ) :
    some (pyChoices1 ACTIONS ACTION_WEIGHTS (floatFrac k)) =
      weightedChoice actionTable (floatFrac k) := by
  have hm : (k % 2 ^ 53) < 2 ^ 53 := Nat.mod_lt _ (by norm_num)
  have hu0 : 0 ≤ floatFrac k := by
    rw [floatFrac]
    positivity
  have hu1 : floatFrac k < 1 := by
    rw [floatFrac, div_lt_one (by norm_num)]
    exact_mod_cast hm
  have hp : (2 : ℕ) ^ 53 = 9007199254740992 := by norm_num
  have hne1 : floatFrac k ≠ 3 / 5 := by
    rw [floatFrac]
    intro hEq
    rw [div_eq_div_iff (by norm_num) (by norm_num)] at hEq
    have h5 : (k % 2 ^ 53) * 5 = 3 * 2 ^ 53 := by exact_mod_cast hEq
    rw [hp] at h5
    omega
  have hne2 : floatFrac k ≠ 9 / 10 := by
    rw [floatFrac]
    intro hEq
    rw [div_eq_div_iff (by norm_num) (by norm_num)] at hEq
    have h10 : (k % 2 ^ 53) * 10 = 9 * 2 ^ 53 := by exact_mod_cast hEq
    rw [hp] at h10
    omega
  simp only [pyChoices1, weightedChoice, wcGo, cumAux, ACTIONS, ACTION_WEIGHTS, actionTable,
    List.countP, List.countP.go, List.getLastD, Bool.cond_decide]
  norm_num
  split_ifs <;>
    first
      | rfl
      | (exfalso; apply hne1; linarith)
      | (exfalso; apply hne2; linarith)

/-- **C9**: there is an input line — here `"2024-13-01 10:00:00 ERROR boom"`,
whose matched timestamp text has month field 13 — on which the summarizer's
unguarded `datetime.fromisoformat` call raises, aborting the whole pass with
an error instead of treating the timestamp as absent. -/
theorem claim_C9 :
    (∃ m, tsSearch ("2024-13-01 10:00:00 ERROR boom").data = some m ∧
        fromIsoFormat (pyReplaceT m) = .error "field out of range") ∧
    summarizeAgg none none none ["2024-13-01 10:00:00 ERROR boom"] =
      .error "field out of range" := by
  exact ⟨⟨_, rfl, rfl⟩, rfl⟩

lemma roundHalfEven_nonneg (y : ℝ) (hy : 0 ≤ y) : 0 ≤ roundHalfEven y := by
  rw [roundHalfEven]
  split_ifs with h1 h2
  · exact Int.floor_nonneg.mpr hy
  · have := Int.floor_nonneg.mpr hy
    omega
  · rw [round_eq]
    exact Int.floor_nonneg.mpr (by linarith)

lemma roundHalfEven_pos (y : ℝ) (hy : 1 / 2 < y) : 1 ≤ roundHalfEven y := by
  rw [roundHalfEven]
  split_ifs with h1 h2
  · rw [Int.fract] at h1
    have hfl : (0 : ℝ) < (⌊y⌋ : ℤ) := by linarith
    exact_mod_cast hfl
  · have := Int.floor_nonneg.mpr (show (0:ℝ) ≤ y by linarith)
    omega
  · rw [round_eq]
    refine Int.le_floor.mpr ?_
    push_cast
    linarith

lemma roundHalfEven_eq_zero (y : ℝ) (h0 : 0 ≤ y) (h1 : y < 1 / 2) :
    roundHalfEven y = 0 := by
  have hfl : ⌊y⌋ = 0 := Int.floor_eq_zero_iff.mpr (Set.mem_Ico.mpr ⟨h0, by linarith⟩)
  rw [roundHalfEven, if_neg ?_, round_eq]
  · exact Int.floor_eq_zero_iff.mpr (Set.mem_Ico.mpr ⟨by linarith, by linarith⟩)
  · rw [Int.fract, hfl]
    push_cast
    intro hc
    linarith

/-- **C6** (counterexample to the claim as stated): the timestamps of
line 129 are not strictly increasing for every draw sequence; they can
repeat even on nonzero draws.  First, `u = 0` is in `random()`'s range
(`floatFrac 0 = 0`) and on it `expovariate(1/1.2) = -log(1-0)/lambd = 0`.
Second, the smallest nonzero draw `u = 2^-53` (`floatFrac 1`) gives a
strictly positive expovariate value of about `1.3e-16` seconds, yet
`timedelta` rounds it to zero microseconds, so the next record carries
the same timestamp. -/
theorem claim_C6_counterexample :
    (floatFrac 0 = 0 ∧
      ¬ StrictMono (tsSeqMicros 0 fun _ => ((floatFrac 0 : ℚ) : ℝ))) ∧
    (floatFrac 1 = 1 / 2 ^ 53 ∧
      (0 : ℝ) < expovariateR ((floatFrac 1 : ℚ) : ℝ) ∧
      ¬ StrictMono (tsSeqMicros 0 fun _ => ((floatFrac 1 : ℚ) : ℝ))) := by
  have hf0 : floatFrac 0 = 0 := by norm_num [floatFrac]
  have hf1 : floatFrac 1 = 1 / 2 ^ 53 := by norm_num [floatFrac]
  have hcast1 : ((floatFrac 1 : ℚ) : ℝ) = 1 / 2 ^ 53 := by
    rw [hf1]
    norm_num
  refine ⟨⟨hf0, ?_⟩, hf1, ?_, ?_⟩
  · intro hmono
    have h01 := hmono (show (0 : ℕ) < 1 by norm_num)
    rw [hf0] at h01
    have hz : timedeltaMicros (expovariateR ((0 : ℚ) : ℝ)) = 0 := by
      have he : expovariateR ((0 : ℚ) : ℝ) = 0 := by
        rw [expovariateR]
        push_cast
        simp [Real.log_one]
      rw [timedeltaMicros, he]
      exact roundHalfEven_eq_zero _ (by norm_num) (by norm_num)
    simp only [tsSeqMicros, hz] at h01
    omega
  · rw [hcast1, expovariateR]
    have hl : Real.log (1 - 1 / 2 ^ 53) < 0 :=
      Real.log_neg (by norm_num) (by norm_num)
    have : 0 < -Real.log (1 - (1:ℝ) / 2 ^ 53) := by linarith
    positivity
  · intro hmono
    have h01 := hmono (show (0 : ℕ) < 1 by norm_num)
    rw [hcast1] at h01
    have hlogle : Real.log ((1 - (1:ℝ) / 2 ^ 53)⁻¹) ≤ (1 - (1:ℝ) / 2 ^ 53)⁻¹ - 1 :=
      Real.log_le_sub_one_of_pos (by norm_num)
    have hneg : -Real.log (1 - (1:ℝ) / 2 ^ 53) = Real.log ((1 - (1:ℝ) / 2 ^ 53)⁻¹) := by
      rw [Real.log_inv]
    have hnn : 0 ≤ -Real.log (1 - (1:ℝ) / 2 ^ 53) := by
      have := Real.log_nonpos (show (0:ℝ) ≤ 1 - 1 / 2 ^ 53 by norm_num)
        (show (1:ℝ) - 1 / 2 ^ 53 ≤ 1 by norm_num)
      linarith
    have hsub : (1 - (1:ℝ) / 2 ^ 53)⁻¹ - 1 = 1 / (2 ^ 53 - 1) := by
      rw [show (1:ℝ) - 1 / 2 ^ 53 = (2 ^ 53 - 1) / 2 ^ 53 by ring]
      rw [inv_div]
      rw [div_sub_one (by norm_num)]
      norm_num
    have hz : timedeltaMicros (expovariateR (1 / 2 ^ 53)) = 0 := by
      rw [timedeltaMicros]
      apply roundHalfEven_eq_zero
      · rw [expovariateR]
        have : 0 ≤ -Real.log (1 - (1:ℝ) / 2 ^ 53) / (5 / 6) := by positivity
        positivity
      · rw [expovariateR]
        have hx : -Real.log (1 - (1:ℝ) / 2 ^ 53) ≤ 1 / (2 ^ 53 - 1) := by
          rw [hneg, ← hsub]
          exact hlogle
        have h2 : (1:ℝ) / (2 ^ 53 - 1) / (5 / 6) * 1000000 < 1 / 2 := by
          rw [div_div]
          rw [div_mul_eq_mul_div, div_lt_div_iff₀ (by norm_num) (by norm_num)]
          norm_num
        calc -Real.log (1 - (1:ℝ) / 2 ^ 53) / (5 / 6) * 1000000
            ≤ (1:ℝ) / (2 ^ 53 - 1) / (5 / 6) * 1000000 := by gcongr
          _ < 1 / 2 := h2
    simp only [tsSeqMicros, hz] at h01
    omega

/-- **C6** (amended): line 129 adds `timedelta(seconds=expovariate(1/1.2))`
— the expovariate value rounded to whole microseconds — so the record
timestamps are always non-decreasing, and strictly increasing provided
every drawn inter-arrival time exceeds half a microsecond (its rounding
then being at least one microsecond).  Smaller draws, including `u = 0`
and the nonzero `u = 2^-53`, repeat the previous timestamp. -/
theorem claim_C6 (t0 : ℤ) (u : ℕ → ℝ)
    (h0 : ∀ i, 0 ≤ u i) (h1 : ∀ i, u i < 1) :
    Monotone (tsSeqMicros t0 u) ∧
      ((∀ i, 1 / 2 < expovariateR (u i) * 1000000) →
        StrictMono (tsSeqMicros t0 u)) := by
  constructor
  · apply monotone_nat_of_le_succ
    intro n
    have hl : Real.log (1 - u n) ≤ 0 :=
      Real.log_nonpos (by linarith [h1 n]) (by linarith [h0 n])
    have he : 0 ≤ expovariateR (u n) := by
      rw [expovariateR]
      have : 0 ≤ -Real.log (1 - u n) := by linarith
      positivity
    have hr : 0 ≤ timedeltaMicros (expovariateR (u n)) := by
      rw [timedeltaMicros]
      exact roundHalfEven_nonneg _ (by positivity)
    show tsSeqMicros t0 u n ≤ tsSeqMicros t0 u n + timedeltaMicros (expovariateR (u n))
    omega
  · intro hpos
    apply strictMono_nat_of_lt_succ
    intro n
    have hr : 1 ≤ timedeltaMicros (expovariateR (u n)) := by
      rw [timedeltaMicros]
      exact roundHalfEven_pos _ (hpos n)
    show tsSeqMicros t0 u n < tsSeqMicros t0 u n + timedeltaMicros (expovariateR (u n))
    omega

theorem claim_C6_witness :
    Monotone (tsSeqMicros 0 fun _ => (1 / 2 : ℝ)) ∧
    StrictMono (tsSeqMicros 0 fun _ => (1 / 2 : ℝ)) := by
  have h := claim_C6 0 (fun _ => (1 / 2 : ℝ))
    (fun _ => by norm_num) (fun _ => by norm_num)
  refine ⟨h.1, h.2 fun _ => ?_⟩
  rw [expovariateR]
  rw [show (1:ℝ) - 1 / 2 = 2⁻¹ by norm_num, Real.log_inv]
  have hlog : (0.6931471803 : ℝ) < Real.log 2 := Real.log_two_gt_d9
  rw [neg_neg]
  rw [div_mul_eq_mul_div, lt_div_iff₀ (by norm_num)]
  nlinarith

lemma data_mk (l : List Char) : (String.mk l).data = l := rfl

lemma severity_eval0 : (weightedChoice SEVERITY (floatFrac 0)).getD "" = "INFO" := by
  norm_num [weightedChoice, wcGo, SEVERITY, floatFrac]

lemma action_eval0 : pyChoices1 ACTIONS ACTION_WEIGHTS (floatFrac 0) = "ACCEPT" := by
  norm_num [pyChoices1, cumAux, ACTIONS, ACTION_WEIGHTS, floatFrac,
    List.countP, List.countP.go]

lemma ipv4_eval_b6 : randomIPv4 (3/5) 3 (fun _ => 0) 4 = some ("10.0.0.1", 7) := by
  norm_num [randomIPv4, pyRandom, pyChoice, pyRandint, floatFrac, NETS]
  decide

lemma ipv4_eval_b3 : randomIPv4 (3/10) 3 (fun _ => 0) 7 = some ("10.0.0.1", 10) := by
  norm_num [randomIPv4, pyRandom, pyChoice, pyRandint, floatFrac, NETS]
  decide

lemma makeLogLine_eval0 (e : Tape) (q : ℕ) :
    makeLogLine ⟨2025, 1, 1, 0, 0, 0⟩ HOST 1000 3 (fun _ => 0) e 2 q =
      some (String.mk (lineChars ⟨2025, 1, 1, 0, 0, 0⟩ HOST 1000
        ⟨"INFO", "TCP", "10.0.0.1", "10.0.0.1", 1, 22, "eth0", "eth0", "ACCEPT",
         0, 0, 100, uuidUid (e q), "Connection established"⟩), 19, q + 1) := by
  unfold makeLogLine
  norm_num [pyRandom, pyChoice, pyRandint, ipv4_eval_b6, ipv4_eval_b3,
    severity_eval0, action_eval0, PROTOCOLS, PORTS, INTERFACES, REASONS_INFO]

set_option maxRecDepth 4000 in
lemma generateLogs_eval0 (e : Tape) :
    generateLogs 1 ⟨2025, 1, 1, 0, 0, 0⟩ (fun ts _ => ts) 3 (fun _ => 0) e =
      some ([String.mk (pyRstrip (lineChars ⟨2025, 1, 1, 0, 0, 0⟩ HOST 1000
        ⟨"INFO", "TCP", "10.0.0.1", "10.0.0.1", 1, 22, "eth0", "eth0", "ACCEPT",
         0, 0, 100, uuidUid (e 0), "Connection established"⟩) ++ ['\n'])], 19, 1) := by
  unfold generateLogs
  simp only [pyRandint]
  norm_num
  simp only [genLoop, pyRandom]
  norm_num [makeLogLine_eval0, data_mk]

set_option maxRecDepth 40000 in
/-- **C1** (refutation): two `generate_logs` runs with identical
`(count, start_time)` and identical seeded random tape — i.e. the same
seed — but different OS-entropy outcomes for the `uuid.uuid4()` call
produce different files: the correlation id (line 101) is drawn from
`os.urandom`, which `random.seed` does not control, so the output file is
not determined by `(count, seed, start_time)` alone. -/
theorem claim_C1 :
    generateLogs 1 ⟨2025, 1, 1, 0, 0, 0⟩ (fun ts _ => ts) 3 (fun _ => 0) (fun _ => 0) ≠
      generateLogs 1 ⟨2025, 1, 1, 0, 0, 0⟩ (fun ts _ => ts) 3 (fun _ => 0) (fun _ => 2 ^ 127) := by
  rw [generateLogs_eval0 (fun _ => 0), generateLogs_eval0 (fun _ => 2 ^ 127)]
  decide

@[simp] lemma beforeStart_none (t : PyDateTime) : beforeStart none t = false := rfl

@[simp] lemma afterEnd_none (t : PyDateTime) : afterEnd none t = false := rfl

@[simp] lemma kwMiss_none (m : List Char) : kwMiss none m = false := rfl

lemma sigStep_projA (kw : Option (List Char)) (level : String) (msg : List Char)
    (st : Agg) : projA (sigStep kw level msg st) = projA st := by
  rw [sigStep]
  split_ifs <;> rfl

lemma projA_fields {st1 st2 : Agg} (h : projA st1 = projA st2) :
    st1.total = st2.total ∧ st1.levels = st2.levels ∧
      st1.first = st2.first ∧ st1.last = st2.last := by
  simp only [projA, Prod.mk.injEq] at h
  exact ⟨h.1, h.2.1, h.2.2.1, h.2.2.2⟩

lemma projA_procLine (kw : Option (List Char)) (sd ed : Option PyDateTime)
    (st1 st2 : Agg) (l : String) (h : projA st1 = projA st2) :
    (procLine kw sd ed st1 l).map projA = (procLine none none none st2 l).map projA := by
  obtain ⟨ht, hl, hf, hla⟩ := projA_fields h
  rw [procLine, procLine]
  cases hts : (parseLogLine l).1 with
  | none =>
    dsimp only
    simp only [Except.map, sigStep_projA]
    simp [projA, ht, hl, hf, hla]
  | some tstr =>
    dsimp only
    cases hiso : fromIsoFormat (pyReplaceT tstr) with
    | error e => simp [Except.map]
    | ok tobj =>
      dsimp only
      split_ifs <;>
        · simp only [Except.map, sigStep_projA]
          simp [projA, sigStep_projA, ht, hl, hf, hla]

lemma projA_runAgg (kw : Option (List Char)) (sd ed : Option PyDateTime) :
    ∀ (lines : List String) (st1 st2 : Agg), projA st1 = projA st2 →
      (runAgg kw sd ed lines st1).map projA = (runAgg none none none lines st2).map projA := by
  intro lines
  induction lines with
  | nil =>
    intro st1 st2 h
    simp [runAgg, Except.map, h]
  | cons l rest ih =>
    intro st1 st2 h
    have hp := projA_procLine kw sd ed st1 st2 l h
    rw [runAgg, runAgg]
    cases h1 : procLine kw sd ed st1 l with
    | error e =>
      cases h2 : procLine none none none st2 l with
      | error e2 =>
        rw [h1, h2] at hp
        simp only [Except.map] at hp
        cases hp
        simp [Except.map]
      | ok st2x => rw [h1, h2] at hp; simp [Except.map] at hp
    | ok st1x =>
      cases h2 : procLine none none none st2 l with
      | error e2 => rw [h1, h2] at hp; simp [Except.map] at hp
      | ok st2x =>
        rw [h1, h2] at hp
        simp only [Except.map, Except.ok.injEq] at hp
        exact ih st1x st2x hp

/-- **C2**: the summarizer's total line count, per-level counts and
first/last timestamp markers are independent of the keyword and date
filters: with any filter combination, the pass succeeds or fails on the
same file, and on success the filter-independent projection of the
aggregate equals that of the unfiltered pass — only the error-signature
map may differ. -/
theorem claim_C2 (kw : Option (List Char)) (sd ed : Option PyDateTime)
    (lines : List String) :
    (summarizeAgg kw sd ed lines).map projA =
      (summarizeAgg none none none lines).map projA :=
  projA_runAgg kw sd ed lines emptyAgg emptyAgg rfl

lemma bump_lookup (m : List (String × ℕ)) (k : String) :
    (bump m k).lookup k = some (((m.lookup k).getD 0) + 1) := by
  induction m with
  | nil => simp [bump, List.lookup]
  | cons x rest ih =>
    obtain ⟨x1, x2⟩ := x
    by_cases hx : x1 = k
    · subst hx
      simp [bump, List.lookup]
    · rw [bump, if_neg hx]
      have hbeq : (k == x1) = false := by
        simp [hx]
        exact fun hc => hx hc.symm
      simp [List.lookup, hbeq, ih]

/-- **C7**: for any input line whose extracted level is ERROR or CRITICAL,
which passes the keyword filter and (if it carries a parseable timestamp)
the date window, the summarizer's step succeeds and replaces the
error-signature map by `bump`-ing the signature obtained by splitting the
trimmed message on whitespace, dropping the first token, and joining the
next at most 7 tokens with single spaces — that signature's occurrence
count goes up by exactly one. -/
theorem claim_C7 (kw : Option (List Char)) (sd ed : Option PyDateTime)
    (st : Agg) (line : String)
    (hlvl : (parseLogLine line).2.1 = "ERROR" ∨ (parseLogLine line).2.1 = "CRITICAL")
    (hkw : kwMiss kw (parseLogLine line).2.2 = false)
    (hts : ∀ tstr, (parseLogLine line).1 = some tstr →
      ∃ tobj, fromIsoFormat (pyReplaceT tstr) = .ok tobj ∧
        beforeStart sd tobj = false ∧ afterEnd ed tobj = false) :
    ∃ st', procLine kw sd ed st line = .ok st' ∧
      st'.errors = bump st.errors (String.mk (errSig (parseLogLine line).2.2)) ∧
      st'.errors.lookup (String.mk (errSig (parseLogLine line).2.2)) =
        some (((st.errors.lookup
          (String.mk (errSig (parseLogLine line).2.2))).getD 0) + 1) := by
  rw [procLine]
  cases hp : (parseLogLine line).1 with
  | none =>
    dsimp only
    refine ⟨_, rfl, ?_, ?_⟩
    · rw [sigStep, if_neg (by simp [hkw]), if_pos hlvl]
    · rw [sigStep, if_neg (by simp [hkw]), if_pos hlvl]
      exact bump_lookup _ _
  | some tstr =>
    obtain ⟨tobj, hiso, hb, he⟩ := hts tstr hp
    dsimp only
    rw [hiso]
    dsimp only
    rw [if_neg (by simp [hb]), if_neg (by simp [he])]
    refine ⟨_, rfl, ?_, ?_⟩
    · rw [sigStep, if_neg (by simp [hkw]), if_pos hlvl]
    · rw [sigStep, if_neg (by simp [hkw]), if_pos hlvl]
      exact bump_lookup _ _

theorem claim_C7_witness :
    ∃ st', procLine none none none emptyAgg "ERROR x a b c d e f g h" = .ok st' ∧
      st'.errors = bump emptyAgg.errors
        (String.mk (errSig (parseLogLine "ERROR x a b c d e f g h").2.2)) ∧
      st'.errors.lookup
        (String.mk (errSig (parseLogLine "ERROR x a b c d e f g h").2.2)) =
        some (((emptyAgg.errors.lookup
          (String.mk (errSig (parseLogLine "ERROR x a b c d e f g h").2.2))).getD 0) + 1) := by
  apply claim_C7
  · left
    decide
  · rfl
  · intro tstr hT
    rw [show (parseLogLine "ERROR x a b c d e f g h").1 = none from by decide] at hT
    cases hT

lemma publicQuadLoop_spec (t : Tape) :
    ∀ (fuel p : ℕ) (qd : ℕ × ℕ × ℕ × ℕ) (pp : ℕ),
      publicQuadLoop t fuel p = some (qd, pp) →
      1 ≤ qd.1 ∧ qd.1 ≤ 254 ∧ qd.2.1 ≤ 254 ∧ qd.2.2.1 ≤ 254 ∧
        1 ≤ qd.2.2.2 ∧ qd.2.2.2 ≤ 254 ∧ reservedQuad qd.1 qd.2.1 = false := by
  intro fuel
  induction fuel with
  | zero => intro p qd pp h; simp [publicQuadLoop] at h
  | succ n ih =>
    intro p qd pp h
    rw [publicQuadLoop] at h
    dsimp only [pyRandint] at h
    split at h
    · exact ih _ _ _ h
    · rename_i hg
      injection h with h1
      injection h1 with hqd hpp
      subst hqd
      dsimp only
      have ha : t p % 254 < 254 := Nat.mod_lt _ (by norm_num)
      have hbb : t (p + 1) % 255 < 255 := Nat.mod_lt _ (by norm_num)
      have hcc : t (p + 1 + 1) % 255 < 255 := Nat.mod_lt _ (by norm_num)
      have hd : t (p + 1 + 1 + 1) % 254 < 254 := Nat.mod_lt _ (by norm_num)
      refine ⟨by omega, by omega, by omega, by omega, by omega, by omega, ?_⟩
      simpa using hg

lemma reservedQuad_iff (a b : ℕ) :
    reservedQuad a b = true ↔
      (a = 10 ∨ (a = 192 ∧ b = 168) ∨ (a = 172 ∧ (16 ≤ b ∧ b ≤ 31))) := by
  simp [reservedQuad, or_assoc]

lemma not_inReserved_of (a b c d : ℕ)
    (hb : b ≤ 254) (hc : c ≤ 254) (hd : d ≤ 254)
    (hg : reservedQuad a b = false) : ¬ inReserved (quadNum a b c d) := by
  have h24 : (2 : ℕ) ^ 24 = 16777216 := by norm_num
  have h16 : (2 : ℕ) ^ 16 = 65536 := by norm_num
  have hgp : ¬(a = 10 ∨ (a = 192 ∧ b = 168) ∨ (a = 172 ∧ (16 ≤ b ∧ b ≤ 31))) := by
    rw [← reservedQuad_iff]
    simp [hg]
  intro hres
  rw [inReserved, h24, h16] at hres
  rw [quadNum] at hres
  rcases hres with ⟨u1, u2⟩ | ⟨u1, u2⟩ | ⟨u1, u2⟩
  · exact hgp (Or.inl (by omega))
  · refine hgp (Or.inr (Or.inr ⟨by omega, by omega, by omega⟩))
  · exact hgp (Or.inr (Or.inl ⟨by omega, by omega⟩))

/-- **C3**: every address `random_ipv4` returns on the non-bias branch
(in particular every address when the bias is 0) is a dotted quad of
octets in valid ranges whose 32-bit value lies outside all three reserved
blocks; and every address returned on the bias branch (in particular
every address when the bias is 1) is the rendering of a 32-bit value
strictly between the network and broadcast addresses of one of the three
reserved blocks. -/
theorem claim_C3 (bias : ℚ) (fuel : ℕ) (t : Tape) (p : ℕ) (res : String) (pp : ℕ)
    (h : randomIPv4 bias fuel t p = some (res, pp)) :
    (¬ floatFrac (t p) < bias →
      ∃ a b c d, res = String.mk (quadChars a b c d) ∧
        1 ≤ a ∧ a ≤ 254 ∧ b ≤ 254 ∧ c ≤ 254 ∧ 1 ≤ d ∧ d ≤ 254 ∧
        ¬ inReserved (quadNum a b c d)) ∧
    (floatFrac (t p) < bias →
      ∃ base sz, (base, sz) ∈ NETS ∧ ∃ n, res = String.mk (ipChars n) ∧
        base < n ∧ n < base + sz - 1) := by
  rw [randomIPv4] at h
  dsimp only [pyRandom, pyChoice, pyRandint] at h
  by_cases hb : floatFrac (t p) < bias
  · rw [if_pos hb] at h
    refine ⟨fun hc => absurd hb hc, fun _ => ?_⟩
    have hi : t (p + 1) % NETS.length < NETS.length := Nat.mod_lt _ (by decide)
    set i := t (p + 1) % NETS.length with hidef
    have h3 : NETS.length = 3 := by decide
    rw [h3] at hi
    interval_cases i
    · simp only [NETS, List.getD, List.get?, Option.getD] at h
      injection h with h1
      injection h1 with hres hpp
      subst hres
      have hm := Nat.mod_lt (t (p + 1 + 1)) (show 0 < 2 ^ 24 - 2 by norm_num)
      exact ⟨10 * 2 ^ 24, 2 ^ 24, by simp [NETS], _, rfl, by omega, by omega⟩
    · simp only [NETS, List.getD, List.get?, Option.getD] at h
      injection h with h1
      injection h1 with hres hpp
      subst hres
      have hm := Nat.mod_lt (t (p + 1 + 1)) (show 0 < 2 ^ 16 - 2 by norm_num)
      exact ⟨192 * 2 ^ 24 + 168 * 2 ^ 16, 2 ^ 16, by simp [NETS], _, rfl, by omega, by omega⟩
    · simp only [NETS, List.getD, List.get?, Option.getD] at h
      injection h with h1
      injection h1 with hres hpp
      subst hres
      have hm := Nat.mod_lt (t (p + 1 + 1)) (show 0 < 2 ^ 20 - 2 by norm_num)
      exact ⟨172 * 2 ^ 24 + 16 * 2 ^ 16, 2 ^ 20, by simp [NETS], _, rfl, by omega, by omega⟩
  · rw [if_neg hb] at h
    refine ⟨fun _ => ?_, fun hc => absurd hc hb⟩
    cases hq : publicQuadLoop t fuel (p + 1) with
    | none => rw [hq] at h; cases h
    | some v =>
      obtain ⟨qd, pq⟩ := v
      obtain ⟨a, b, c, d⟩ := qd
      rw [hq] at h
      injection h with h1
      injection h1 with hres hpp
      subst hres
      obtain ⟨x1, x2, x3, x4, x5, x6, x7⟩ := publicQuadLoop_spec t fuel (p + 1) _ _ hq
      exact ⟨a, b, c, d, rfl, x1, x2, x3, x4, x5, x6,
        not_inReserved_of a b c d x3 x4 x6 x7⟩

theorem claim_C3_witness :
    ∃ a b c d, "1.0.0.1" = String.mk (quadChars a b c d) ∧
      1 ≤ a ∧ a ≤ 254 ∧ b ≤ 254 ∧ c ≤ 254 ∧ 1 ≤ d ∧ d ≤ 254 ∧
      ¬ inReserved (quadNum a b c d) := by
  have h : randomIPv4 0 1 (fun _ => 0) 0 = some ("1.0.0.1", 5) := by
    rw [randomIPv4]
    dsimp only [pyRandom]
    rw [if_neg (by norm_num [floatFrac])]
    decide
  exact (claim_C3 0 1 (fun _ => 0) 0 "1.0.0.1" 5 h).1 (by norm_num [floatFrac])

/-! ### Character-class facts for the generated line -/

lemma safeCh_digitChar (d : ℕ) (hd : d < 10) : SafeCh (digitChar d) := by
  interval_cases d <;> exact (by decide)

lemma natCharsAux_safe : ∀ (fuel n : ℕ) (c : Char), c ∈ natCharsAux fuel n → SafeCh c := by
  intro fuel
  induction fuel with
  | zero => intro n c h; simp [natCharsAux] at h
  | succ f ih =>
    intro n c h
    cases n with
    | zero => simp [natCharsAux] at h
    | succ m =>
      rw [natCharsAux] at h
      rcases List.mem_append.mp h with h1 | h1
      · exact ih _ _ h1
      · have : c = digitChar ((m + 1) % 10) := by simpa using h1
        subst this
        exact safeCh_digitChar _ (Nat.mod_lt _ (by norm_num))

lemma natChars_safe (n : ℕ) : ∀ c ∈ natChars n, SafeCh c := by
  intro c h
  rw [natChars] at h
  split at h
  · have : c = '0' := by simpa using h
    subst this
    decide
  · exact natCharsAux_safe _ _ _ h

lemma safeCh_hexChar (d : ℕ) (hd : d < 16) : SafeCh (hexChar d) := by
  interval_cases d <;> exact (by decide)

lemma hexCharsAux_safe : ∀ (fuel n : ℕ) (c : Char), c ∈ hexCharsAux fuel n → SafeCh c := by
  intro fuel
  induction fuel with
  | zero => intro n c h; simp [hexCharsAux] at h
  | succ f ih =>
    intro n c h
    cases n with
    | zero => simp [hexCharsAux] at h
    | succ m =>
      rw [hexCharsAux] at h
      rcases List.mem_append.mp h with h1 | h1
      · exact ih _ _ h1
      · have : c = hexChar ((m + 1) % 16) := by simpa using h1
        subst this
        exact safeCh_hexChar _ (Nat.mod_lt _ (by norm_num))

lemma uuidUid_safe (n : ℕ) : ∀ c ∈ uuidUid n, SafeCh c := by
  intro c h
  have h2 : c ∈ uuidHexChars n := List.take_subset _ _ h
  rw [uuidHexChars] at h2
  rcases List.mem_append.mp h2 with h3 | h3
  · have : c = '0' := List.eq_of_mem_replicate h3
    subst this
    decide
  · split at h3
    · have : c = '0' := by simpa using h3
      subst this
      decide
    · exact hexCharsAux_safe _ _ _ h3

lemma ipChars_safe (n : ℕ) : ∀ c ∈ ipChars n, SafeCh c := by
  intro c h
  rw [ipChars] at h
  simp only [List.mem_append, List.mem_cons, or_assoc] at h
  rcases h with h | h | h | h | h | h | h <;>
    first
      | exact natChars_safe _ _ h
      | (subst h; decide)

lemma quadChars_safe (a b c d : ℕ) : ∀ x ∈ quadChars a b c d, SafeCh x := by
  intro x h
  rw [quadChars] at h
  simp only [List.mem_append, List.mem_cons, or_assoc] at h
  rcases h with h | h | h | h | h | h | h <;>
    first
      | exact natChars_safe _ _ h
      | (subst h; decide)

lemma pad2Chars_safe (n : ℕ) : ∀ c ∈ pad2Chars n, SafeCh c := by
  intro c h
  rw [pad2Chars] at h
  split at h
  · rcases List.mem_cons.mp h with h1 | h1
    · subst h1; decide
    · exact natChars_safe _ _ h1
  · exact natChars_safe _ _ h

lemma getD_mem_or {α : Type} (l : List α) (i : ℕ) (d : α) :
    l.getD i d ∈ l ∨ l.getD i d = d := by
  induction l generalizing i with
  | nil => right; cases i <;> rfl
  | cons x xs ih =>
    cases i with
    | zero => left; simp [List.getD]
    | succ j =>
      rcases ih j with h | h
      · left
        simp only [List.getD] at h ⊢
        exact List.mem_cons_of_mem _ h
      · right
        simpa [List.getD] using h

lemma syslogTsChars_safe (ts : PyDateTime) : ∀ c ∈ syslogTsChars ts, SafeCh c := by
  have hm : ∀ s ∈ MONTHS, ∀ c ∈ s.data, SafeCh c := by decide
  intro c h
  rw [syslogTsChars] at h
  simp only [List.mem_append, List.mem_cons, or_assoc] at h
  rcases h with h | h | h | h | h | h | h | h | h
  · rcases getD_mem_or MONTHS (ts.month - 1) "Jan" with hmem | hdef
    · exact hm _ hmem c h
    · rw [hdef] at h
      have : c ∈ ("Jan" : String).data := h
      fin_cases this <;> decide
  · subst h; decide
  · exact pad2Chars_safe _ _ h
  · subst h; decide
  · exact pad2Chars_safe _ _ h
  · subst h; decide
  · exact pad2Chars_safe _ _ h
  · subst h; decide
  · exact pad2Chars_safe _ _ h

/-! ### No digit-hyphen adjacency in a generated line -/

lemma chain_noDH_of_no_hyphen (l : List Char) (h : ∀ c ∈ l, c ≠ '-') :
    List.Chain' noDHRel l := by
  induction l with
  | nil => exact List.chain'_nil
  | cons x xs ih =>
    rw [List.chain'_cons']
    refine ⟨?_, ih fun c hc => h c (List.mem_cons_of_mem _ hc)⟩
    intro y hy
    exact fun hcon => h y (List.mem_cons_of_mem _ (List.mem_of_mem_head? hy)) hcon.2

lemma chain_of_noDHb : ∀ (l : List Char), noDHb l = true → List.Chain' noDHRel l
  | [], _ => List.chain'_nil
  | [c], _ => List.chain'_singleton c
  | c1 :: c2 :: rest, h => by
    rw [noDHb] at h
    simp only [Bool.and_eq_true] at h
    obtain ⟨h1, h2⟩ := h
    rw [List.chain'_cons]
    refine ⟨?_, chain_of_noDHb _ h2⟩
    intro hcon
    obtain ⟨hd, hc⟩ := hcon
    subst hc
    simp [hd] at h1

lemma fwFrag_facts (sev : String) (hs : sev ∈ sevLabels) :
    List.Chain' noDHRel (fwFrag sev) ∧ (fwFrag sev).head? = some '%' ∧
      (fwFrag sev).getLast? = some '.' := by
  fin_cases hs <;> exact ⟨chain_of_noDHb _ (by decide), by decide, by decide⟩

lemma line_chain (P T : List Char) (sev : String)
    (hP : ∀ c ∈ P, c ≠ '-') (hT : ∀ c ∈ T, c ≠ '-') (hs : sev ∈ sevLabels) :
    List.Chain' noDHRel (P ++ (fwFrag sev ++ T)) := by
  obtain ⟨hc, hh, hl⟩ := fwFrag_facts sev hs
  rw [List.chain'_append]
  refine ⟨chain_noDH_of_no_hyphen P hP, ?_, ?_⟩
  · rw [List.chain'_append]
    refine ⟨hc, chain_noDH_of_no_hyphen T hT, ?_⟩
    intro x hx y hy
    have : y ∈ T := List.mem_of_mem_head? hy
    exact fun hcon => hT y this hcon.2
  · intro x hx y hy
    rw [List.head?_append] at hy
    rw [hh] at hy
    have hyp : '%' = y := by simpa using hy
    subst hyp
    exact fun hcon => absurd hcon.2 (by decide)

lemma sevLabels_safe : ∀ s ∈ sevLabels, ∀ c ∈ s.data, SafeCh c := by decide

lemma msgChars_no_ctrl (d : LineDraws)
    (hsev : d.sev ∈ sevLabels)
    (hproto : ∀ c ∈ d.proto.data, SafeCh c)
    (hsip : ∀ c ∈ d.sIp.data, SafeCh c)
    (hdip : ∀ c ∈ d.dIp.data, SafeCh c)
    (hin : ∀ c ∈ d.inIf.data, SafeCh c)
    (hout : ∀ c ∈ d.outIf.data, SafeCh c)
    (hact : ∀ c ∈ d.action.data, SafeCh c)
    (huid : ∀ c ∈ d.uid, SafeCh c)
    (hreason : ∀ c ∈ d.reason.data, SafeCh c) :
    CtrlFreeL (msgChars d) := by
  rw [CtrlFreeL, msgChars]
  simp only [List.forall_mem_append, and_assoc]
  exact ⟨by decide, fun c h => (sevLabels_safe _ hsev c h).1, by decide,
    fun c h => (natChars_safe _ c h).1, by decide,
    fun c h => (hreason c h).1, by decide, fun c h => (hsip c h).1, by decide,
    fun c h => (hdip c h).1, by decide, fun c h => (hproto c h).1, by decide,
    fun c h => (natChars_safe _ c h).1, by decide,
    fun c h => (natChars_safe _ c h).1, by decide, fun c h => (hact c h).1,
    by decide, fun c h => (natChars_safe _ c h).1, by decide,
    fun c h => (natChars_safe _ c h).1, by decide,
    fun c h => (natChars_safe _ c h).1, by decide, fun c h => (hin c h).1,
    by decide, fun c h => (hout c h).1, by decide, fun c h => (huid c h).1⟩

set_option maxHeartbeats 1000000 in
lemma lineChars_safe (ts : PyDateTime) (host : String) (pid : ℕ) (d : LineDraws)
    (hhost : ∀ c ∈ host.data, SafeCh c)
    (hsev : d.sev ∈ sevLabels)
    (hproto : ∀ c ∈ d.proto.data, SafeCh c)
    (hsip : ∀ c ∈ d.sIp.data, SafeCh c)
    (hdip : ∀ c ∈ d.dIp.data, SafeCh c)
    (hin : ∀ c ∈ d.inIf.data, SafeCh c)
    (hout : ∀ c ∈ d.outIf.data, SafeCh c)
    (hact : ∀ c ∈ d.action.data, SafeCh c)
    (huid : ∀ c ∈ d.uid, SafeCh c)
    (hreason : ∀ c ∈ d.reason.data, SafeCh c) :
    CtrlFreeL (lineChars ts host pid d) ∧
      List.Chain' noDHRel (lineChars ts host pid d) := by
  have hmsg : CtrlFreeL (msgChars d) :=
    msgChars_no_ctrl d hsev hproto hsip hdip hin hout hact huid hreason
  have hsan : sanitizeMsg (msgChars d) = msgChars d := by
    rw [sanitizeMsg]
    rw [List.filter_eq_self]
    intro c hc
    simp [hmsg c hc]
  constructor
  · rw [CtrlFreeL, lineChars]
    simp only [List.forall_mem_append, and_assoc]
    refine ⟨fun c h => (syslogTsChars_safe ts c h).1, ?_, by decide,
      fun c h => (natChars_safe _ c h).1, by decide, ?_⟩
    · rw [List.forall_mem_cons]
      exact ⟨by decide, fun c h => (hhost c h).1⟩
    · intro c h
      rw [sanitizeMsg] at h
      simpa using (List.mem_filter.mp h).2
  · have heq : lineChars ts host pid d =
        (syslogTsChars ts ++ ' ' :: host.data ++ " firewall[".data ++
          natChars pid ++ "]: ".data) ++
        (fwFrag d.sev ++
          (natChars d.rule ++ ": ".data ++ d.reason.data ++ "; src=".data ++
            d.sIp.data ++ " dst=".data ++ d.dIp.data ++ " proto=".data ++
            d.proto.data ++ " spt=".data ++ natChars d.sPt ++ " dpt=".data ++
            natChars d.dPt ++ " action=".data ++ d.action.data ++
            " bytes=".data ++ natChars d.bytesCnt ++ " pkts=".data ++
            natChars d.pkts ++ " rule=".data ++ natChars d.rule ++
            " in=".data ++ d.inIf.data ++ " out=".data ++ d.outIf.data ++
            " uid=".data ++ d.uid)) := by
      rw [lineChars, hsan, msgChars, fwFrag]
      simp [List.append_assoc, List.cons_append]
    rw [heq]
    refine line_chain _ _ _ ?_ ?_ hsev
    · simp only [List.forall_mem_append, and_assoc]
      refine ⟨fun c h => (syslogTsChars_safe ts c h).2, ?_, by decide,
        fun c h => (natChars_safe _ c h).2, by decide⟩
      rw [List.forall_mem_cons]
      exact ⟨by decide, fun c h => (hhost c h).2⟩
    · simp only [List.forall_mem_append, and_assoc]
      exact ⟨fun c h => (natChars_safe _ c h).2, by decide,
        fun c h => (hreason c h).2, by decide, fun c h => (hsip c h).2,
        by decide, fun c h => (hdip c h).2, by decide,
        fun c h => (hproto c h).2, by decide,
        fun c h => (natChars_safe _ c h).2, by decide,
        fun c h => (natChars_safe _ c h).2, by decide,
        fun c h => (hact c h).2, by decide,
        fun c h => (natChars_safe _ c h).2, by decide,
        fun c h => (natChars_safe _ c h).2, by decide,
        fun c h => (natChars_safe _ c h).2, by decide,
        fun c h => (hin c h).2, by decide, fun c h => (hout c h).2,
        by decide, fun c h => (huid c h).2⟩

lemma wcGo_mem (r : ℚ) : ∀ (cs : List (String × ℚ)) (upto : ℚ) (s : String),
    wcGo r upto cs = some s → s ∈ cs.map Prod.fst := by
  intro cs
  induction cs with
  | nil => intro upto s h; simp [wcGo] at h
  | cons x rest ih =>
    intro upto s h
    rw [wcGo] at h
    split at h
    · injection h with h1
      subst h1
      simp
    · simp only [List.map_cons, List.mem_cons]
      exact Or.inr (ih _ _ h)

lemma mem_of_getLast? {α : Type} : ∀ (l : List α) (a : α), l.getLast? = some a → a ∈ l := by
  intro l
  induction l with
  | nil => intro a h; cases h
  | cons x xs ih =>
    intro a h
    cases xs with
    | nil =>
      have : x = a := by simpa [List.getLast?] using h
      subst this
      exact List.mem_cons_self _ _
    | cons y ys =>
      rw [List.getLast?_cons_cons] at h
      exact List.mem_cons_of_mem _ (ih a h)

lemma weightedChoice_mem (cs : List (String × ℚ)) (r : ℚ) (s : String)
    (h : weightedChoice cs r = some s) : s ∈ cs.map Prod.fst := by
  rw [weightedChoice] at h
  cases hg : wcGo r 0 cs with
  | some k =>
    rw [hg] at h
    injection h with h1
    subst h1
    exact wcGo_mem r cs 0 _ hg
  | none =>
    rw [hg] at h
    cases hL : cs.getLast? with
    | none => rw [hL] at h; cases h
    | some x =>
      rw [hL] at h
      injection h with h1
      subst h1
      exact List.mem_map_of_mem _ (mem_of_getLast? _ _ hL)

lemma sev_mem (r : ℚ) : (weightedChoice SEVERITY r).getD "" ∈ sevLabels := by
  cases h : weightedChoice SEVERITY r with
  | none => simp [sevLabels]
  | some s =>
    have hm := weightedChoice_mem _ _ _ h
    have hmap : SEVERITY.map Prod.fst = ["INFO", "NOTICE", "WARNING", "ERROR", "CRITICAL"] := rfl
    rw [hmap] at hm
    simp only [Option.getD_some]
    fin_cases hm <;> simp [sevLabels]

lemma safe_of_mem_or (l : List String) (s : String)
    (hl : ∀ x ∈ l, ∀ c ∈ x.data, SafeCh c) (h : s ∈ l ∨ s = "") :
    ∀ c ∈ s.data, SafeCh c := by
  rcases h with h | h
  · exact hl s h
  · subst h
    intro c hc
    simp at hc

lemma pyChoice_mem_or {α : Type} (l : List α) (dd : α) (t : Tape) (p : ℕ) :
    (pyChoice l dd t p).1 ∈ l ∨ (pyChoice l dd t p).1 = dd := by
  rw [pyChoice]
  exact getD_mem_or l _ dd

lemma pyChoices1_mem_or (pop : List String) (ws : List ℚ) (u : ℚ) :
    pyChoices1 pop ws u ∈ pop ∨ pyChoices1 pop ws u = "" := by
  rw [pyChoices1]
  exact getD_mem_or pop _ ""

lemma randomIPv4_shape (bias : ℚ) (fuel : ℕ) (t : Tape) (p : ℕ) (res : String) (pp : ℕ)
    (h : randomIPv4 bias fuel t p = some (res, pp)) :
    (∃ n, res = String.mk (ipChars n)) ∨
      ∃ a b c dq, res = String.mk (quadChars a b c dq) := by
  rw [randomIPv4] at h
  dsimp only [pyRandom, pyChoice, pyRandint] at h
  split at h
  · left
    injection h with h1
    injection h1 with hres hpp
    exact ⟨_, hres.symm⟩
  · cases hq : publicQuadLoop t fuel (p + 1) with
    | none => rw [hq] at h; cases h
    | some v =>
      rw [hq] at h
      right
      injection h with h1
      injection h1 with hres hpp
      exact ⟨_, _, _, _, hres.symm⟩

lemma randomIPv4_safe (bias : ℚ) (fuel : ℕ) (t : Tape) (p : ℕ) (res : String) (pp : ℕ)
    (h : randomIPv4 bias fuel t p = some (res, pp)) : ∀ c ∈ res.data, SafeCh c := by
  rcases randomIPv4_shape bias fuel t p res pp h with ⟨n, rfl⟩ | ⟨a, b, c, dq, rfl⟩
  · exact ipChars_safe n
  · exact quadChars_safe a b c dq

lemma reason_safe (sev : String) (t : Tape) (p : ℕ) :
    ∀ c ∈ (if sev = "INFO" ∨ sev = "NOTICE" then pyChoice REASONS_INFO "" t p
      else if sev = "WARNING" then pyChoice REASONS_WARN "" t p
      else pyChoice REASONS_ERROR "" t p).1.data, SafeCh c := by
  split_ifs <;>
    exact safe_of_mem_or _ _ (by decide) (pyChoice_mem_or _ _ _ _)

lemma makeLogLine_safe (ts : PyDateTime) (host : String) (pid : ℕ) (fuel : ℕ)
    (t e : Tape) (p q : ℕ) (line : String) (pp qq : ℕ)
    (hhost : ∀ c ∈ host.data, SafeCh c)
    (h : makeLogLine ts host pid fuel t e p q = some (line, pp, qq)) :
    CtrlFreeL line.data ∧ List.Chain' noDHRel line.data := by
  rw [makeLogLine] at h
  split at h
  · exact Option.noConfusion h
  · rename_i sIp p2 hip1
    split at h
    · exact Option.noConfusion h
    · rename_i dIp p3 hip2
      dsimp only at h
      injection h with h1
      injection h1 with hline hrest
      subst hline
      rw [data_mk]
      apply lineChars_safe
      · exact hhost
      · exact sev_mem _
      · exact safe_of_mem_or _ _ (by decide) (pyChoice_mem_or _ _ _ _)
      · exact randomIPv4_safe _ _ _ _ _ _ hip1
      · exact randomIPv4_safe _ _ _ _ _ _ hip2
      · exact safe_of_mem_or _ _ (by decide) (pyChoice_mem_or _ _ _ _)
      · exact safe_of_mem_or _ _ (by decide) (pyChoice_mem_or _ _ _ _)
      · exact safe_of_mem_or _ _ (by decide) (pyChoices1_mem_or _ _ _)
      · exact uuidUid_safe _
      · exact reason_safe _ _ _

lemma pyRstrip_append (l : List Char) :
    pyRstrip l ++ (l.reverse.takeWhile isPySpace).reverse = l := by
  rw [pyRstrip, ← List.reverse_append, List.takeWhile_append_dropWhile,
    List.reverse_reverse]

lemma genLoop_safe (host : String) (pid : ℕ) (advance : PyDateTime → ℚ → PyDateTime)
    (fuel : ℕ) (t e : Tape) (hhost : ∀ c ∈ host.data, SafeCh c) :
    ∀ (count : ℕ) (ts : PyDateTime) (p q : ℕ) (out : List String) (pp qq : ℕ),
      genLoop host pid advance fuel t e count ts p q = some (out, pp, qq) →
      out.length = count ∧
        ∀ l ∈ out, ∃ body, l = String.mk (body ++ ['\n']) ∧ CtrlFreeL body ∧
          List.Chain' noDHRel (body ++ ['\n']) := by
  intro count
  induction count with
  | zero =>
    intro ts p q out pp qq h
    rw [genLoop] at h
    injection h with h1
    injection h1 with hout hrest
    subst hout
    exact ⟨rfl, fun l hl => absurd hl (List.not_mem_nil l)⟩
  | succ n ih =>
    intro ts p q out pp qq h
    rw [genLoop] at h
    split at h
    · exact Option.noConfusion h
    · rename_i line p2 q2 hml
      split at h
      · exact Option.noConfusion h
      · rename_i rest p3 q3 hrec
        injection h with h1
        injection h1 with hout hrest2
        subst hout
        obtain ⟨hcf, hch⟩ := makeLogLine_safe _ _ _ _ _ _ _ _ _ _ _ hhost hml
        obtain ⟨hlen, hall⟩ := ih _ _ _ _ _ _ hrec
        refine ⟨by simp [hlen], ?_⟩
        intro l hl
        rcases List.mem_cons.mp hl with hl0 | hl1
        · subst hl0
          refine ⟨pyRstrip line.data, rfl, ?_, ?_⟩
          · intro c hc
            have hcm : c ∈ line.data := by
              rw [← pyRstrip_append line.data]
              exact List.mem_append_left _ hc
            exact hcf c hcm
          · rw [List.chain'_append]
            refine ⟨?_, List.chain'_singleton _, ?_⟩
            · have hfull : List.Chain' noDHRel (pyRstrip line.data ++
                  (line.data.reverse.takeWhile isPySpace).reverse) := by
                rw [pyRstrip_append]
                exact hch
              exact (List.chain'_append.mp hfull).1
            · intro x hx y hy
              have hyn : '\n' = y := by simpa using hy
              subst hyn
              exact fun hcon => absurd hcon.2 (by decide)
        · exact hall l hl1

/-- **C4**: for every count (including 0, which yields an empty file with no
crash) and any tape outcomes, a successful `generate_logs` run writes
exactly `count` chunks, each a newline-terminated line whose body contains
none of the control characters `\r \n \t \x0b \x0c`. -/
theorem claim_C4 (count : ℕ) (startTime : PyDateTime)
    (advance : PyDateTime → ℚ → PyDateTime) (fuel : ℕ) (t e : Tape)
    (out : List String) (p q : ℕ)
    (h : generateLogs count startTime advance fuel t e = some (out, p, q)) :
    out.length = count ∧
      ∀ l ∈ out, ∃ body, l = String.mk (body ++ ['\n']) ∧ CtrlFreeL body := by
  rw [generateLogs] at h
  have hs := genLoop_safe HOST _ advance fuel t e (by decide) count startTime _ 0
    out p q h
  exact ⟨hs.1, fun l hl => (hs.2 l hl).imp fun body hb => ⟨hb.1, hb.2.1⟩⟩

theorem claim_C4_witness :
    ∃ out p q, generateLogs 1 ⟨2025, 1, 1, 0, 0, 0⟩ (fun ts _ => ts) 3
        (fun _ => 0) (fun _ => 0) = some (out, p, q) ∧ out.length = 1 ∧
      ∀ l ∈ out, ∃ body, l = String.mk (body ++ ['\n']) ∧ CtrlFreeL body := by
  have h := generateLogs_eval0 (fun _ => 0)
  obtain ⟨h1, h2⟩ := claim_C4 _ _ _ _ _ _ _ _ _ h
  exact ⟨_, _, _, h, h1, h2⟩

lemma chAt_eq_get (cs : List Char) (j : ℕ) (hj : j < cs.length) :
    chAt cs j = cs.get ⟨j, hj⟩ := by
  rw [chAt, List.getD_eq_getElem?_getD, List.getElem?_eq_getElem hj]
  rfl

lemma chAt_of_ge (cs : List Char) (j : ℕ) (hj : cs.length ≤ j) : chAt cs j = ' ' := by
  rw [chAt, List.getD_eq_getElem?_getD, List.getElem?_eq_none hj]
  rfl

lemma tsMatchAt_pair (cs : List Char) (i : ℕ) (h : tsMatchAt cs i = true) :
    ∃ hj : i + 4 < cs.length,
      (cs.get ⟨i + 3, by omega⟩).isDigit = true ∧ cs.get ⟨i + 4, hj⟩ = '-' := by
  rw [tsMatchAt] at h
  simp only [Bool.and_eq_true] at h
  obtain ⟨⟨hb, hs⟩, ha⟩ := h
  rw [tsShapeAt] at hs
  simp only [Bool.and_eq_true, and_assoc] at hs
  obtain ⟨h1, h2, h3, h4, h5, hrest⟩ := hs
  have hhyph : chAt cs (i + 4) = '-' := by
    have := h5
    rwa [beq_iff_eq] at this
  have hlen : i + 4 < cs.length := by
    by_contra hge
    push_neg at hge
    rw [chAt_of_ge cs (i + 4) hge] at hhyph
    exact absurd hhyph (by decide)
  refine ⟨hlen, ?_, ?_⟩
  · rw [dAt] at h4
    rwa [chAt_eq_get cs (i + 3) (by omega)] at h4
  · rwa [chAt_eq_get cs (i + 4) hlen] at hhyph

lemma tsSearch_eq_none (cs : List Char) (h : List.Chain' noDHRel cs) :
    tsSearch cs = none := by
  rw [tsSearch]
  have hnone : (List.range cs.length).find? (tsMatchAt cs) = none := by
    rw [List.find?_eq_none]
    intro i _
    intro hmatch
    obtain ⟨hj, hdig, hhyph⟩ := tsMatchAt_pair cs i hmatch
    have hpair := List.chain'_iff_get.mp h (i + 3) (by omega)
    exact hpair ⟨by simpa using hdig, by simpa using hhyph⟩
  rw [hnone]
  rfl

lemma sigStep_marks (kw : Option (List Char)) (level : String) (msg : List Char)
    (st : Agg) :
    (sigStep kw level msg st).first = st.first ∧
      (sigStep kw level msg st).last = st.last := by
  rw [sigStep]
  split_ifs <;> exact ⟨rfl, rfl⟩

lemma runAgg_no_ts : ∀ (lines : List String) (st : Agg),
    (∀ l ∈ lines, tsSearch l.data = none) →
    ∃ stx, runAgg none none none lines st = .ok stx ∧
      stx.first = st.first ∧ stx.last = st.last := by
  intro lines
  induction lines with
  | nil => intro st _; exact ⟨st, rfl, rfl, rfl⟩
  | cons l rest ih =>
    intro st hall
    have hts : (parseLogLine l).1 = none := hall l (List.mem_cons_self _ _)
    have hstep : procLine none none none st l =
        .ok (sigStep none (parseLogLine l).2.1 (parseLogLine l).2.2
          { st with total := st.total + 1,
                    levels := bump st.levels (parseLogLine l).2.1 }) := by
      rw [procLine, hts]
    obtain ⟨stx, hrun, hf, hl2⟩ := ih
      (sigStep none (parseLogLine l).2.1 (parseLogLine l).2.2
        { st with total := st.total + 1,
                  levels := bump st.levels (parseLogLine l).2.1 })
      (fun x hx => hall x (List.mem_cons_of_mem _ hx))
    refine ⟨stx, ?_, ?_, ?_⟩
    · rw [runAgg, hstep]
      exact hrun
    · rw [hf, (sigStep_marks _ _ _ _).1]
    · rw [hl2, (sigStep_marks _ _ _ _).2]

/-- **C10**: the generator renders timestamps in syslog form
(`formatSyslogTs`, abbreviated month name + day + HH:MM:SS inside
`lineChars`), and no part of any generated line matches the summarizer's
`YYYY-MM-DD` timestamp pattern (a match would need a digit immediately
followed by a hyphen, which no generated line contains); consequently
summarizing a generator-produced file leaves the first/last markers unset
and the rendered report's third line is the literal `"Time span: N/A"`. -/
theorem claim_C10 (count : ℕ) (startTime : PyDateTime)
    (advance : PyDateTime → ℚ → PyDateTime) (fuel : ℕ) (t e : Tape)
    (out : List String) (p q : ℕ) (path : String)
    (h : generateLogs count startTime advance fuel t e = some (out, p, q)) :
    (∀ l ∈ out, tsSearch l.data = none) ∧
    ∃ st, summarizeAgg none none none out = .ok st ∧ st.first = none ∧
      st.last = none ∧ (renderSummary path st).get? 2 = some "Time span: N/A" := by
  rw [generateLogs] at h
  have hs := genLoop_safe HOST _ advance fuel t e (by decide) count startTime _ 0
    out p q h
  have hts : ∀ l ∈ out, tsSearch l.data = none := by
    intro l hl
    obtain ⟨body, rfl, hcf, hch⟩ := hs.2 l hl
    rw [data_mk]
    exact tsSearch_eq_none _ hch
  refine ⟨hts, ?_⟩
  obtain ⟨st, hrun, hf, hl2⟩ := runAgg_no_ts out emptyAgg hts
  have hfn : st.first = none := by rw [hf]; rfl
  have hln : st.last = none := by rw [hl2]; rfl
  have hrun2 : summarizeAgg none none none out = .ok st := by
    rw [summarizeAgg]
    exact hrun
  refine ⟨st, hrun2, hfn, hln, ?_⟩
  rw [renderSummary, hfn]
  rfl

theorem claim_C10_witness :
    ∃ out p q, generateLogs 1 ⟨2025, 1, 1, 0, 0, 0⟩ (fun ts _ => ts) 3
        (fun _ => 0) (fun _ => 0) = some (out, p, q) ∧
      (∀ l ∈ out, tsSearch l.data = none) ∧
      ∃ st, summarizeAgg none none none out = .ok st ∧
        (renderSummary "log.txt" st).get? 2 = some "Time span: N/A" := by
  have h := generateLogs_eval0 (fun _ => 0)
  obtain ⟨h1, st, h2, h3, h4, h5⟩ := claim_C10 _ _ _ _ _ _ _ _ _ "log.txt" h
  exact ⟨_, _, _, h, h1, st, h2, h5⟩

end LogMining
